import Mathlib

/-!
Shallow embedding of the fetch-cache-retry access layer of `api/index.py`
(seonung-dev/invest): the rate limiter `rate_limit`, the retrying fetcher
`make_fmp_request`, the TTL cache (the module-level `cache` dictionary with
`CACHE_DURATION`), the search reshaping `search_fmp_stocks`, and the two
query endpoints `search_stocks` (`/api/search/<query>`) and `get_stock_data`
(`/api/stock/<symbol>`).

Time is modelled as a rational number (seconds); the wall clock and the
outcome of each HTTP call are passed in explicitly.  Upstream HTTP calls are
modelled by a transport function giving, per attempt, either a
transport-level failure (timeout / connection error / non-2xx status /
unparsable body) or a parsed 2xx JSON body.
-/

namespace Invest

/-! ## Python string primitives used by the service -/

/-- Python `str.lower()` (ASCII case mapping, which covers every string the
service builds keys and sort keys from). -/
def pyLower (s : String) : String :=
  String.mk (s.data.map Char.toLower)

/-- Python `str.upper()`. -/
def pyUpper (s : String) : String :=
  String.mk (s.data.map Char.toUpper)

/-- Python `str.strip()`: drop whitespace from both ends. -/
def pyStrip (s : String) : String :=
  String.mk (((s.data.dropWhile Char.isWhitespace).reverse.dropWhile Char.isWhitespace).reverse)

/-- Python `str.startswith(p)`. -/
def pyStartsWith (s p : String) : Bool :=
  p.data.isPrefixOf s.data

/-- Parsed JSON values, as produced by `response.json()`. -/
inductive Json where
  | jnull
  | jbool (b : Bool)
  | jnum (q : ℚ)
  | jstr (s : String)
  | jarr (elems : List Json)
  | jobj (fields : List (String × Json))

/-- Constants from the configuration block of `api/index.py`
(`CACHE_DURATION = 300`, `MAX_RETRIES = 2`, `RETRY_DELAY = 0.5`,
`RATE_LIMIT = 0.3`). -/
def CACHE_DURATION : ℚ := 300

def MAX_RETRIES : Nat := 2

def RETRY_DELAY : ℚ := 1 / 2

def RATE_LIMIT : ℚ := 3 / 10

/-! ## Rate limiter (`rate_limit`) -/

/-- The clock plus the module-global `last_api_request` timestamp.  `now` is
the value `time.time()` would return; sleeping advances it. -/
structure LimiterState where
  now : ℚ
  last_api_request : ℚ
deriving DecidableEq

/-- `rate_limit()`: computes `elapsed = time.time() - last_api_request`,
sleeps `RATE_LIMIT - elapsed` when `elapsed < RATE_LIMIT`, then stores
`time.time()` (the post-sleep clock) into `last_api_request`. -/
def rate_limit (s : LimiterState) : LimiterState :=
  let elapsed := s.now - s.last_api_request
  let afterSleep := if elapsed < RATE_LIMIT then s.now + (RATE_LIMIT - elapsed) else s.now
  { now := afterSleep, last_api_request := afterSleep }

/-- `n` consecutive calls to `rate_limit()` with no time passing in
between. -/
def acquireN : Nat → LimiterState → LimiterState
  | 0, s => s
  | n + 1, s => acquireN n (rate_limit s)

/-! ## Retrying fetcher (`make_fmp_request`) -/

/-- Outcome of one `requests.get` attempt, after `raise_for_status()` and
`response.json()`: either some exception before a parsed body was obtained
(timeout, connection error, non-2xx, bad JSON), or a parsed 2xx body. -/
inductive HttpAttempt where
  | transportError
  | ok (body : Json)

/-- The exception that `make_fmp_request` ultimately raises. -/
inductive FmpFailure where
  | transport
  | provider (msg : Json)

/-- `data['Error Message']` when `isinstance(data, dict)` and the key is
present, else `none`. -/
def errorMessageField : Json → Option Json
  | .jobj fields => fields.lookup "Error Message"
  | _ => none

/-- One iteration of the retry loop body: a 2xx body that is a dict with an
`'Error Message'` key raises `Exception(data['Error Message'])`, which the
same `except` clause catches. -/
def attemptResult (r : HttpAttempt) : Except FmpFailure Json :=
  match r with
  | .transportError => .error .transport
  | .ok body =>
    match errorMessageField body with
    | some m => .error (.provider m)
    | none => .ok body

/-- The `for attempt in range(MAX_RETRIES)` loop of `make_fmp_request`:
`start` is the current attempt index, `remaining` the number of loop
iterations left.  Returns the result together with the number of upstream
calls made.  On an exception, the last iteration re-raises it; earlier
iterations sleep `RETRY_DELAY` and continue. -/
def fmpAttempts (transport : Nat → HttpAttempt) :
    Nat → Nat → Except FmpFailure Json × Nat
  | _, 0 => (.error .transport, 0)
  | start, remaining + 1 =>
    match attemptResult (transport start) with
    | .ok body => (.ok body, 1)
    | .error e =>
      if remaining = 0 then (.error e, 1)
      else
        let rest := fmpAttempts transport (start + 1) remaining
        (rest.1, rest.2 + 1)

/-- `make_fmp_request(endpoint, params)`, parametrised by the transport.
Returns the parsed JSON or the raised exception, paired with the number of
upstream calls made. -/
def make_fmp_request (transport : Nat → HttpAttempt) : Except FmpFailure Json × Nat :=
  fmpAttempts transport 0 MAX_RETRIES

/-! ## TTL cache (the `cache` dict with `CACHE_DURATION`) -/

/-- The module-level `cache` dict, per value type: each entry is
`{'data': value, 'time': storedAt}`.  An association list looked up
front-to-back; `cachePut` prepends, so the newest entry for a key shadows
older ones, matching dict assignment as observed through lookups. -/
def Cache (α : Type) : Type := List (String × α × ℚ)

/-- `cache_key in cache and (now - cache[cache_key]['time']) < CACHE_DURATION`:
the stored value is served only while fresh; a stale entry behaves as
absent. -/
def cacheGet {α : Type} (cache : Cache α) (key : String) (now : ℚ) : Option α :=
  match cache.lookup key with
  | some entry => if now - entry.2 < CACHE_DURATION then some entry.1 else none
  | none => none

/-- `cache[cache_key] = {'data': value, 'time': now}`. -/
def cachePut {α : Type} (cache : Cache α) (key : String) (value : α) (now : ℚ) : Cache α :=
  (key, value, now) :: cache

/-! ## Search reshaping (`search_fmp_stocks`) -/

/-- One element of the upstream `/search` array, restricted to the fields
the code reads: `item['symbol']`, `item['name']`,
`item.get('exchangeShortName', '')` (the default `''` is folded into the
field). -/
structure FmpSearchItem where
  symbol : String
  name : String
  exchangeShortName : String
deriving DecidableEq

/-- The reshaped search result built by `search_fmp_stocks`. -/
structure SearchResult where
  symbol : String
  name : String
  exchange : String
  currency : String
  displayText : String
  country : String
  type : String
deriving DecidableEq

/-- The exchange allow-list: `['NYSE', 'NASDAQ', 'AMEX']`. -/
def allowedExchanges : List String := ["NYSE", "NASDAQ", "AMEX"]

/-- Python `str.isalpha` on a character list: nonempty and all alphabetic. -/
def pyIsAlpha (s : List Char) : Bool :=
  !s.isEmpty && s.all Char.isAlpha

/-- The filter applied to each not-yet-seen item, in source order:
exchange must be in the allow-list; `symbol.replace('.', '')` must be
alphabetic and `len(symbol) <= 6`; and `'.' not in symbol`. -/
def passesUsFilter (symbol exchange : String) : Bool :=
  allowedExchanges.contains exchange &&
  (pyIsAlpha (symbol.data.filter (fun c => c ≠ '.')) && decide (symbol.length ≤ 6)) &&
  !(symbol.data.contains '.')

/-- The dict appended to `results` for a surviving item. -/
def mkResult (item : FmpSearchItem) : SearchResult :=
  { symbol := item.symbol
    name := item.name
    exchange := item.exchangeShortName
    currency := "USD"
    displayText := item.name ++ " (" ++ item.symbol ++ ")"
    country := "🇺🇸 미국"
    type := "stock" }

/-- The `for item in search_data` loop: `seen` is `seen_symbols` (checked and
extended before the exchange filter), `count` is `len(results)` so far; after
appending the 20th result the loop breaks. -/
def searchFmpGo (seen : List String) (count : Nat) : List FmpSearchItem → List SearchResult
  | [] => []
  | item :: rest =>
    if item.symbol ∈ seen then
      searchFmpGo seen count rest
    else
      if passesUsFilter item.symbol item.exchangeShortName then
        if count + 1 ≥ 20 then [mkResult item]
        else mkResult item :: searchFmpGo (item.symbol :: seen) (count + 1) rest
      else
        searchFmpGo (item.symbol :: seen) count rest

/-- `search_fmp_stocks(query)`, parametrised by the outcome of its
`make_fmp_request("search", ...)` call: any exception is caught and turned
into `[]`; otherwise the items are deduplicated, filtered and reshaped. -/
def search_fmp_stocks (fetch : Except FmpFailure (List FmpSearchItem)) : List SearchResult :=
  match fetch with
  | .error _ => []
  | .ok items => searchFmpGo [] 0 items

/-! ## Search endpoint (`search_stocks`, route `/api/search/<query>`) -/

/-- The tuple returned by `sort_key_us(item)`; Python compares tuples
lexicographically with `False < True`, so the booleans are mapped to
`0/1`. -/
def sortKeyUs (query : String) (item : SearchResult) : Nat × Nat × Nat × Nat × Nat × String :=
  let ql := pyLower query
  let symbolExact := pyLower item.symbol = ql
  let nameStarts := pyStartsWith (pyLower item.name) ql
  let symbolStarts := pyStartsWith (pyLower item.symbol) ql
  let isNasdaqNyse := (["NASDAQ", "NYSE"] : List String).contains item.exchange
  ( if symbolExact then 0 else 1
  , if symbolStarts then 0 else 1
  , if nameStarts then 0 else 1
  , if isNasdaqNyse then 0 else 1
  , item.symbol.length
  , item.symbol )

/-- Lexicographic `≤` on the sort-key tuples, as Python tuple comparison. -/
def keyTupleLe (a b : Nat × Nat × Nat × Nat × Nat × String) : Bool :=
  if a.1 ≠ b.1 then decide (a.1 < b.1)
  else if a.2.1 ≠ b.2.1 then decide (a.2.1 < b.2.1)
  else if a.2.2.1 ≠ b.2.2.1 then decide (a.2.2.1 < b.2.2.1)
  else if a.2.2.2.1 ≠ b.2.2.2.1 then decide (a.2.2.2.1 < b.2.2.2.1)
  else if a.2.2.2.2.1 ≠ b.2.2.2.2.1 then decide (a.2.2.2.2.1 < b.2.2.2.2.1)
  else decide (a.2.2.2.2.2 ≤ b.2.2.2.2.2)

/-- `fmp_results.sort(key=sort_key_us)`: Python `list.sort` is a stable
sort by the key; a stable sort with respect to a total comparator is
unique, so the stable `List.insertionSort` models it. -/
def sortUs (query : String) (results : List SearchResult) : List SearchResult :=
  List.insertionSort
    (fun a b => keyTupleLe (sortKeyUs query a) (sortKeyUs query b) = true) results

/-- The JSON body of a `/api/search/<query>` response, restricted to the
fields the code emits, plus the HTTP status. -/
structure SearchResponse where
  query : String
  results : List SearchResult
  count : Nat
  source : Option String
  status : Nat
deriving DecidableEq

/-- `search_stocks(query)`: validation, cache probe, fetch-reshape-sort,
cache write.  Besides the response it returns the updated cache and the
number of `make_fmp_request` calls issued.  The two `except` fallbacks of
the Python function are unreachable here because `search_fmp_stocks`
already catches every upstream exception and the remaining steps are
total. -/
def search_stocks (query : String) (cache : Cache (List SearchResult)) (now : ℚ)
    (fetch : Except FmpFailure (List FmpSearchItem)) :
    SearchResponse × Cache (List SearchResult) × Nat :=
  if query = "" ∨ (pyStrip query).length < 1 then
    ({ query := query, results := [], count := 0, source := none, status := 400 }, cache, 0)
  else
    match cacheGet cache ("us_search_" ++ pyLower query) now with
    | some data =>
      ({ query := query, results := data.take 10, count := data.length
         source := some "cache", status := 200 }, cache, 0)
    | none =>
      let fmpResults := sortUs query (search_fmp_stocks fetch)
      ({ query := query, results := fmpResults.take 10, count := fmpResults.length
         source := some "fmp_api", status := 200 },
       cachePut cache ("us_search_" ++ pyLower query) fmpResults now, 1)

/-! ## Quote endpoint (`get_stock_data`, route `/api/stock/<symbol>`) -/

/-- One element of the upstream `quote/<symbol>` array, restricted to the
fields the code reads.  `price` is accessed as `quote['price']` but may be
absent upstream (a `KeyError` then flows to the `except` clause), so it is
optional here; `change`, `changesPercentage` and `name` are read with
`.get` defaults.  `previousClose` is carried to state specification claims
about it; the code never reads it. -/
structure QuoteUpstream where
  symbol : String
  name : Option String
  price : Option ℚ
  change : Option ℚ
  changesPercentage : Option ℚ
  previousClose : Option ℚ
deriving DecidableEq

/-- The `stock_data` dict built on a successful quote fetch. -/
structure StockData where
  symbol : String
  name : String
  price : ℚ
  change : ℚ
  changePercent : ℚ
  currency : String
  timestamp : ℚ
  source : String
  filter : String
deriving DecidableEq

/-- The JSON body of a `/api/stock/<symbol>` response (payload on 200,
none on 400/404/500) plus the HTTP status. -/
structure StockResponse where
  data : Option StockData
  status : Nat
deriving DecidableEq

/-- `get_stock_data(symbol)`: validation, cache probe, quote fetch, reshape,
cache write.  Returns the response, the updated cache, and the number of
`make_fmp_request` calls issued.  A fetch exception or a missing `'price'`
key lands in the inner `except` clause (HTTP 500); an empty quote array is
the 404 branch.  The cache is written only on the successful path. -/
def get_stock_data (symbol : String) (cache : Cache StockData) (now : ℚ)
    (fetch : Except FmpFailure (List QuoteUpstream)) :
    StockResponse × Cache StockData × Nat :=
  if symbol = "" then
    ({ data := none, status := 400 }, cache, 0)
  else
    match cacheGet cache ("stock_" ++ pyUpper symbol) now with
    | some data => ({ data := some data, status := 200 }, cache, 0)
    | none =>
      match fetch with
      | .error _ => ({ data := none, status := 500 }, cache, 1)
      | .ok [] => ({ data := none, status := 404 }, cache, 1)
      | .ok (quote :: _) =>
        match quote.price with
        | none => ({ data := none, status := 500 }, cache, 1)
        | some p =>
          let stockData : StockData :=
            { symbol := quote.symbol
              name := quote.name.getD symbol
              price := p
              change := quote.change.getD 0
              changePercent := quote.changesPercentage.getD 0
              currency := "USD"
              timestamp := now
              source := "fmp_api"
              filter := "US_STOCK" }
          ({ data := some stockData, status := 200 },
           cachePut cache ("stock_" ++ pyUpper symbol) stockData now, 1)

/-! ## Concrete scenario data used by witnesses and counterexamples -/

/-- An upstream search item as the provider would return it for `AAPL`. -/
def itemAapl : FmpSearchItem :=
  { symbol := "AAPL", name := "Apple Inc.", exchangeShortName := "NASDAQ" }

/-- A second upstream item with the same symbol (a duplicate). -/
def itemAaplDup : FmpSearchItem :=
  { symbol := "AAPL", name := "Apple Inc. (dup)", exchangeShortName := "NYSE" }

/-- An upstream quote with `price = 110` and `previousClose = 100` but no
`change` / `changesPercentage` fields. -/
def quote110 : QuoteUpstream :=
  { symbol := "TEST", name := none, price := some 110, change := none,
    changesPercentage := none, previousClose := some 100 }

/-- An ordinary upstream quote for `AAPL`. -/
def aaplQuote : QuoteUpstream :=
  { symbol := "AAPL", name := some "Apple Inc.", price := some 110, change := some 1,
    changesPercentage := some 2, previousClose := some 100 }

/-- A 2xx JSON body carrying the provider's explicit error field. -/
def providerErrorBody : Json :=
  .jobj [("Error Message", .jstr "Invalid API KEY.")]

/-- The invariant every reshaped search result is claimed to satisfy. -/
def goodSearchResult (r : SearchResult) : Prop :=
  r.exchange ∈ allowedExchanges ∧ r.currency = "USD" ∧ r.type = "stock" ∧
  r.symbol.data.contains '.' = false ∧ r.symbol.data.all Char.isAlpha = true ∧
  r.symbol.length ≤ 6

instance (r : SearchResult) : Decidable (goodSearchResult r) := by
  unfold goodSearchResult; infer_instance

end Invest

namespace Invest

/-! ## Helper lemmas -/

lemma fmpAttempts_all_fail (T : Nat → HttpAttempt) (h : ∀ i, T i = .transportError) :
    ∀ (r start : Nat), 1 ≤ r → fmpAttempts T start r = (.error .transport, r) := by
  intro r
  induction r with
  | zero => intro start h1; omega
  | succ n ih =>
    intro start _
    rw [fmpAttempts, h start]
    cases n with
    | zero => simp [attemptResult]
    | succ m =>
      have hrec := ih (start + 1) (by omega)
      simp [attemptResult, hrec]

lemma fmpAttempts_success (T : Nat → HttpAttempt) (body : Json)
    (hbody : errorMessageField body = none) :
    ∀ (k r start : Nat), k < r → (∀ i, i < k → T (start + i) = .transportError) →
      T (start + k) = .ok body →
      fmpAttempts T start r = (.ok body, k + 1) := by
  intro k
  induction k with
  | zero =>
    intro r start hr _ hok
    obtain ⟨m, rfl⟩ : ∃ m, r = m + 1 := ⟨r - 1, by omega⟩
    simp only [Nat.add_zero] at hok
    rw [fmpAttempts, hok]
    simp [attemptResult, hbody]
  | succ j ih =>
    intro r start hr hfail hok
    obtain ⟨m, rfl⟩ : ∃ m, r = m + 1 := ⟨r - 1, by omega⟩
    have h0 : T start = .transportError := by simpa using hfail 0 (by omega)
    have hm0 : ¬ m = 0 := by omega
    have hrec := ih m (start + 1) (by omega)
      (fun i hi => by
        rw [show start + 1 + i = start + (i + 1) by omega]
        exact hfail (i + 1) (by omega))
      (by rw [show start + 1 + j = start + (j + 1) by omega]; exact hok)
    rw [fmpAttempts, h0]
    simp [attemptResult, hm0, hrec]

lemma rate_limit_now_le (s : LimiterState) : s.now ≤ (rate_limit s).now := by
  unfold rate_limit
  dsimp only
  split_ifs with h
  · linarith
  · exact le_refl _

lemma rate_limit_last (s : LimiterState) :
    (rate_limit s).last_api_request = (rate_limit s).now := rfl

lemma rate_limit_step (s : LimiterState) (h : s.last_api_request = s.now) :
    (rate_limit s).now = s.now + RATE_LIMIT := by
  unfold rate_limit
  dsimp only
  rw [h, sub_self]
  rw [if_pos (by norm_num [RATE_LIMIT])]
  ring

lemma acquireN_now (n : Nat) (s : LimiterState) (h : s.last_api_request = s.now) :
    (acquireN n s).now = s.now + n * RATE_LIMIT := by
  induction n generalizing s with
  | zero => simp [acquireN]
  | succ m ih =>
    show (acquireN m (rate_limit s)).now = _
    rw [ih (rate_limit s) (rate_limit_last s), rate_limit_step s h]
    push_cast
    ring

lemma searchFmpGo_not_seen :
    ∀ (items : List FmpSearchItem) (seen : List String) (count : Nat) (r : SearchResult),
      r ∈ searchFmpGo seen count items → r.symbol ∉ seen := by
  intro items
  induction items with
  | nil => intro seen count r hr; simp [searchFmpGo] at hr
  | cons item rest ih =>
    intro seen count r hr
    by_cases hseen : item.symbol ∈ seen
    · exact ih seen count r (by simpa [searchFmpGo, hseen] using hr)
    · by_cases hpass : passesUsFilter item.symbol item.exchangeShortName = true
      · by_cases hbreak : count + 1 ≥ 20
        · have : r = mkResult item := by
            simpa [searchFmpGo, hseen, hpass, hbreak] using hr
          simpa [this, mkResult] using hseen
        · have hr' : r = mkResult item ∨ r ∈ searchFmpGo (item.symbol :: seen) (count + 1) rest := by
            simpa [searchFmpGo, hseen, hpass, hbreak] using hr
          rcases hr' with rfl | hr'
          · simpa [mkResult] using hseen
          · have := ih (item.symbol :: seen) (count + 1) r hr'
            exact fun hmem => this (List.mem_cons_of_mem _ hmem)
      · have hr' : r ∈ searchFmpGo (item.symbol :: seen) count rest := by
          simpa [searchFmpGo, hseen, hpass] using hr
        have := ih (item.symbol :: seen) count r hr'
        exact fun hmem => this (List.mem_cons_of_mem _ hmem)

lemma searchFmpGo_nodup :
    ∀ (items : List FmpSearchItem) (seen : List String) (count : Nat),
      ((searchFmpGo seen count items).map (fun r => r.symbol)).Nodup := by
  intro items
  induction items with
  | nil => intro seen count; simp [searchFmpGo]
  | cons item rest ih =>
    intro seen count
    by_cases hseen : item.symbol ∈ seen
    · simpa [searchFmpGo, hseen] using ih seen count
    · by_cases hpass : passesUsFilter item.symbol item.exchangeShortName = true
      · by_cases hbreak : count + 1 ≥ 20
        · simp [searchFmpGo, hseen, hpass, hbreak]
        · have hnot : ∀ r ∈ searchFmpGo (item.symbol :: seen) (count + 1) rest,
              r.symbol ≠ item.symbol := by
            intro r hr
            have := searchFmpGo_not_seen rest (item.symbol :: seen) (count + 1) r hr
            intro heq
            exact this (heq ▸ List.mem_cons_self _ _)
          have := ih (item.symbol :: seen) (count + 1)
          simp only [searchFmpGo, if_neg hseen, if_pos hpass, if_neg hbreak, List.map_cons,
            List.nodup_cons]
          refine ⟨?_, this⟩
          intro hmem
          obtain ⟨r, hr, hsym⟩ := List.mem_map.mp hmem
          exact hnot r hr hsym
      · simpa [searchFmpGo, hseen, hpass] using ih (item.symbol :: seen) count

lemma searchFmpGo_chosen :
    ∀ (items : List FmpSearchItem) (seen : List String) (count : Nat),
      ∃ chosen : List FmpSearchItem, chosen.Sublist items ∧
        (∀ it ∈ chosen, passesUsFilter it.symbol it.exchangeShortName = true) ∧
        searchFmpGo seen count items = chosen.map mkResult := by
  intro items
  induction items with
  | nil => intro seen count; exact ⟨[], by simp, by simp, by simp [searchFmpGo]⟩
  | cons item rest ih =>
    intro seen count
    by_cases hseen : item.symbol ∈ seen
    · obtain ⟨chosen, hsub, hpass, heq⟩ := ih seen count
      exact ⟨chosen, hsub.cons _, hpass, by simpa [searchFmpGo, hseen] using heq⟩
    · by_cases hpass : passesUsFilter item.symbol item.exchangeShortName = true
      · by_cases hbreak : count + 1 ≥ 20
        · refine ⟨[item], (List.nil_sublist rest).cons₂ item, ?_, ?_⟩
          · intro it hit
            rcases List.mem_singleton.mp hit with rfl
            exact hpass
          · simp [searchFmpGo, hseen, hpass, hbreak]
        · obtain ⟨chosen, hsub, hpassall, heq⟩ := ih (item.symbol :: seen) (count + 1)
          refine ⟨item :: chosen, hsub.cons₂ _, ?_, ?_⟩
          · intro it hit
            rcases List.mem_cons.mp hit with rfl | hit
            · exact hpass
            · exact hpassall it hit
          · simp [searchFmpGo, hseen, hpass, hbreak, heq]
      · obtain ⟨chosen, hsub, hpassall, heq⟩ := ih (item.symbol :: seen) count
        exact ⟨chosen, hsub.cons _, hpassall, by simpa [searchFmpGo, hseen, hpass] using heq⟩

lemma passes_good (item : FmpSearchItem)
    (h : passesUsFilter item.symbol item.exchangeShortName = true) :
    goodSearchResult (mkResult item) := by
  unfold passesUsFilter at h
  simp only [Bool.and_eq_true, Bool.not_eq_true'] at h
  obtain ⟨⟨hex, halpha, hlen⟩, hdot⟩ := h
  have hnodot : ('.' : Char) ∉ item.symbol.data := by
    simpa using hdot
  have hfilter : item.symbol.data.filter (fun c => decide (c ≠ '.')) = item.symbol.data := by
    apply List.filter_eq_self.mpr
    intro c hc
    simp only [decide_eq_true_eq]
    intro hcdot
    exact hnodot (hcdot ▸ hc)
  unfold pyIsAlpha at halpha
  rw [hfilter] at halpha
  simp only [Bool.and_eq_true] at halpha
  refine ⟨?_, rfl, rfl, hdot, halpha.2, by simpa using hlen⟩
  simpa [allowedExchanges] using hex

lemma mem_searchFmpGo_good :
    ∀ (items : List FmpSearchItem) (seen : List String) (count : Nat) (r : SearchResult),
      r ∈ searchFmpGo seen count items → goodSearchResult r := by
  intro items seen count r hr
  obtain ⟨chosen, _, hpassall, heq⟩ := searchFmpGo_chosen items seen count
  rw [heq] at hr
  obtain ⟨it, hit, rfl⟩ := List.mem_map.mp hr
  exact passes_good it (hpassall it hit)

/-! ## Claim theorems -/

/-- C5: a cache lookup for key `K` returns a stored value iff an entry for
`K` exists and `now - storedAt < CACHE_DURATION`; a `put` followed
immediately by a `get` returns the stored value; a `get` once the TTL has
elapsed behaves as absent; and the TTL constant is 300 s (5 minutes) for
every query kind in this source. -/
theorem cache_ttl_invariant {α : Type} (cache : Cache α) (key : String) (now : ℚ) :
    (∀ v : α, cacheGet cache key now = some v ↔
        ∃ t, cache.lookup key = some (v, t) ∧ now - t < CACHE_DURATION)
    ∧ (∀ (v : α) (t : ℚ), cacheGet (cachePut cache key v t) key t = some v)
    ∧ (∀ (v : α) (t : ℚ), cache.lookup key = some (v, t) →
        CACHE_DURATION ≤ now - t → cacheGet cache key now = none)
    ∧ CACHE_DURATION = 300 := by
  refine ⟨?_, ?_, ?_, rfl⟩
  · intro v
    unfold cacheGet
    cases h : cache.lookup key with
    | none => simp
    | some entry =>
      obtain ⟨w, t⟩ := entry
      show (if now - t < CACHE_DURATION then some w else none) = some v ↔
        ∃ t', some (w, t) = some (v, t') ∧ now - t' < CACHE_DURATION
      by_cases hf : now - t < CACHE_DURATION
      · rw [if_pos hf]
        constructor
        · rintro hv
          cases hv
          exact ⟨t, rfl, hf⟩
        · rintro ⟨t', ht', _⟩
          cases ht'
          rfl
      · rw [if_neg hf]
        constructor
        · intro h'
          simp at h'
        · rintro ⟨t', ht', hlt⟩
          cases ht'
          exact absurd hlt hf
  · intro v t
    have h0 : (0 : ℚ) < CACHE_DURATION := by norm_num [CACHE_DURATION]
    simp [cacheGet, cachePut, h0]
  · intro v t hl hst
    simp [cacheGet, hl, not_lt.mpr hst]

/-- Closed instance of `cache_ttl_invariant`: put-then-get returns the
value, and a get 301 s after storing finds nothing. -/
theorem cache_ttl_invariant_witness :
    cacheGet (cachePut ([] : Cache ℚ) "stock_AAPL" 42 0) "stock_AAPL" 0 = some 42
    ∧ cacheGet ([("stock_AAPL", 42, 0)] : Cache ℚ) "stock_AAPL" 301 = none :=
  ⟨(cache_ttl_invariant [] "stock_AAPL" 0).2.1 42 0,
   (cache_ttl_invariant [("stock_AAPL", 42, 0)] "stock_AAPL" 301).2.2.1 42 0
     (by simp) (by norm_num [CACHE_DURATION])⟩

/-- C6: with a transport that fails the first `k < MAX_RETRIES` times and
then returns a clean 2xx body, `make_fmp_request` succeeds after exactly
`k + 1` upstream calls; with a transport that always fails it gives up
after exactly `MAX_RETRIES` calls; and `MAX_RETRIES = 2` in this source. -/
theorem retry_call_counts :
    (∀ (T : Nat → HttpAttempt) (body : Json) (k : Nat),
        errorMessageField body = none → k < MAX_RETRIES →
        (∀ i, i < k → T i = .transportError) → T k = .ok body →
        make_fmp_request T = (.ok body, k + 1))
    ∧ (∀ T : Nat → HttpAttempt, (∀ i, T i = .transportError) →
        make_fmp_request T = (.error .transport, MAX_RETRIES))
    ∧ MAX_RETRIES = 2 := by
  refine ⟨?_, ?_, rfl⟩
  · intro T body k hb hk hfail hok
    have h := fmpAttempts_success T body hb k MAX_RETRIES 0 hk
      (fun i hi => by simpa using hfail i hi) (by simpa using hok)
    simpa [make_fmp_request] using h
  · intro T h
    have h2 := fmpAttempts_all_fail T h MAX_RETRIES 0 (by norm_num [MAX_RETRIES])
    simpa [make_fmp_request] using h2

/-- Closed instance of `retry_call_counts`: one transport failure followed
by success gives 2 calls; persistent failure gives `MAX_RETRIES` calls. -/
theorem retry_call_counts_witness :
    make_fmp_request (fun i => if i = 0 then .transportError else .ok (.jarr [])) =
      (.ok (.jarr []), 2)
    ∧ make_fmp_request (fun _ => .transportError) = (.error .transport, MAX_RETRIES) := by
  constructor
  · exact retry_call_counts.1 (fun i => if i = 0 then .transportError else .ok (.jarr []))
      (.jarr []) 1 rfl (by norm_num [MAX_RETRIES])
      (fun i hi => by
        have hi0 : i = 0 := by omega
        subst hi0
        rfl)
      rfl
  · exact retry_call_counts.2.1 (fun _ => .transportError) (fun _ => rfl)

/-- C8: `n` consecutive `rate_limit()` calls advance the clock by at least
`(n - 1) * RATE_LIMIT` in total, and each call records the post-sleep
current time as the new `last_api_request` baseline. -/
theorem rate_limiter_spacing (s : LimiterState) (n : Nat) :
    ((n : ℚ) - 1) * RATE_LIMIT ≤ (acquireN n s).now - s.now
    ∧ (rate_limit s).last_api_request = (rate_limit s).now := by
  refine ⟨?_, rate_limit_last s⟩
  cases n with
  | zero =>
    simp only [acquireN, Nat.cast_zero, sub_self, ge_iff_le]
    norm_num [RATE_LIMIT]
  | succ m =>
    have hle := rate_limit_now_le s
    have hnow := acquireN_now m (rate_limit s) (rate_limit_last s)
    show ((((m : Nat) + 1 : Nat) : ℚ) - 1) * RATE_LIMIT ≤ (acquireN m (rate_limit s)).now - s.now
    rw [hnow]
    have hrl : RATE_LIMIT = 3 / 10 := rfl
    push_cast
    rw [hrl]
    linarith

/-- C2 fails on the code: a persistent 2xx provider-error body does NOT
stop the retry loop after one upstream call — `make_fmp_request` makes 2
calls (the `raise` sits inside the `try`, so the same `except` catches and
retries it) before surfacing the provider error. -/
theorem provider_error_two_calls_cex :
    (make_fmp_request (fun _ => .ok providerErrorBody)).2 = 2
    ∧ (make_fmp_request (fun _ => .ok providerErrorBody)).1 =
        .error (.provider (.jstr "Invalid API KEY."))
    ∧ (2 : Nat) ≠ 1 :=
  ⟨rfl, rfl, by decide⟩

/-- C2 amended: a 2xx body carrying the provider's `'Error Message'` field
raises an exception inside the retry loop, which is caught and retried like
a transport failure; with such a body on every attempt, `make_fmp_request`
fails with the provider error after exactly `MAX_RETRIES` upstream calls
(not after one). -/
theorem provider_error_retried (body m : Json) (h : errorMessageField body = some m) :
    make_fmp_request (fun _ => .ok body) = (.error (.provider m), MAX_RETRIES) := by
  have h1 : attemptResult (.ok body) = .error (.provider m) := by
    simp [attemptResult, h]
  show fmpAttempts (fun _ => .ok body) 0 MAX_RETRIES = _
  rw [show MAX_RETRIES = 1 + 1 from rfl, fmpAttempts, h1, fmpAttempts, h1]
  simp

/-- Closed instance of `provider_error_retried` at the concrete provider
error body. -/
theorem provider_error_retried_witness :
    make_fmp_request (fun _ => .ok providerErrorBody) =
      (.error (.provider (.jstr "Invalid API KEY.")), MAX_RETRIES) :=
  provider_error_retried providerErrorBody (.jstr "Invalid API KEY.") rfl

/-- C3 fails on the code: the quote endpoint never computes
`change = price - previousClose`; with `price = 110` and
`previousClose = 100` present (and nonzero) but the upstream `change` and
`changesPercentage` fields absent, the returned quote carries
`change = 0` and `changePercent = 0`, not `10` and `10`, and no rounding
step exists. -/
theorem quote_change_cex :
    quote110.price = some 110
    ∧ quote110.previousClose = some 100
    ∧ (100 : ℚ) ≠ 0
    ∧ ((get_stock_data "TEST" [] 0 (.ok [quote110])).1.data.map
        (fun d => (d.change, d.changePercent))) = some (0, 0)
    ∧ ((0 : ℚ), (0 : ℚ)) ≠ (10, 10) := by
  refine ⟨rfl, rfl, by norm_num, rfl, ?_⟩
  intro h
  have := congrArg Prod.fst h
  norm_num at this

/-- C3 amended: on a non-empty upstream quote array (and a cache miss), the
returned quote passes the upstream `change` and `changesPercentage` fields
through unchanged, defaulting each to 0 when absent; `previousClose` is
never consulted and no rounding is applied. -/
theorem quote_change_passthrough (symbol : String) (cache : Cache StockData) (now : ℚ)
    (quote : QuoteUpstream) (rest : List QuoteUpstream) (p : ℚ)
    (hs : ¬ symbol = "")
    (hmiss : cacheGet cache ("stock_" ++ pyUpper symbol) now = none)
    (hp : quote.price = some p) :
    ∃ d : StockData,
      (get_stock_data symbol cache now (.ok (quote :: rest))).1.data = some d
      ∧ d.price = p
      ∧ d.change = quote.change.getD 0
      ∧ d.changePercent = quote.changesPercentage.getD 0 := by
  have h : (get_stock_data symbol cache now (.ok (quote :: rest))).1.data
      = some { symbol := quote.symbol, name := quote.name.getD symbol, price := p,
               change := quote.change.getD 0, changePercent := quote.changesPercentage.getD 0,
               currency := "USD", timestamp := now, source := "fmp_api",
               filter := "US_STOCK" } := by
    simp only [get_stock_data, if_neg hs, hmiss, hp]
  exact ⟨_, h, rfl, rfl, rfl⟩

/-- Closed instance of `quote_change_passthrough` at the concrete quote. -/
theorem quote_change_passthrough_witness :
    ∃ d : StockData,
      (get_stock_data "TEST" [] 0 (.ok [quote110])).1.data = some d
      ∧ d.price = 110
      ∧ d.change = quote110.change.getD 0
      ∧ d.changePercent = quote110.changesPercentage.getD 0 :=
  quote_change_passthrough "TEST" [] 0 quote110 [] 110 (by decide) rfl rfl

/-- C1 fails on the code for the search endpoint: an upstream transport
failure is swallowed inside `search_fmp_stocks` (which returns `[]`), after
which `search_stocks` caches that empty list — the failing call creates a
cache entry under the query's key where none existed. -/
theorem search_failure_writes_cache_cex :
    ([] : Cache (List SearchResult)).lookup "us_search_aapl" = none
    ∧ (search_stocks "AAPL" [] 0 (.error .transport)).2.1.lookup "us_search_aapl"
        = some ([], 0) := by
  constructor
  · rfl
  · simp [search_stocks, cacheGet, cachePut, sortUs, search_fmp_stocks, pyStrip, pyLower]
    decide

/-- C1 amended: the quote endpoint never touches the cache on any failing
path (fetch exception, empty quote array, missing `price` field), but the
search endpoint reacts to an upstream fetch failure by caching the empty
result list under the query's key (creating or overwriting that entry) and
returning it as a successful response. -/
theorem failure_cache_discipline :
    (∀ (symbol : String) (cache : Cache StockData) (now : ℚ) (e : FmpFailure),
        (get_stock_data symbol cache now (.error e)).2.1 = cache)
    ∧ (∀ (symbol : String) (cache : Cache StockData) (now : ℚ),
        (get_stock_data symbol cache now (.ok [])).2.1 = cache)
    ∧ (∀ (symbol : String) (cache : Cache StockData) (now : ℚ)
        (quote : QuoteUpstream) (rest : List QuoteUpstream), quote.price = none →
        (get_stock_data symbol cache now (.ok (quote :: rest))).2.1 = cache)
    ∧ (∀ (query : String) (cache : Cache (List SearchResult)) (now : ℚ) (e : FmpFailure),
        ¬(query = "" ∨ (pyStrip query).length < 1) →
        cacheGet cache ("us_search_" ++ pyLower query) now = none →
        (search_stocks query cache now (.error e)).2.1 =
          cachePut cache ("us_search_" ++ pyLower query) [] now) := by
  refine ⟨?_, ?_, ?_, ?_⟩
  · intro symbol cache now e
    by_cases hs : symbol = ""
    · simp [get_stock_data, hs]
    · cases hc : cacheGet cache ("stock_" ++ pyUpper symbol) now with
      | none => simp [get_stock_data, hs, hc]
      | some d => simp [get_stock_data, hs, hc]
  · intro symbol cache now
    by_cases hs : symbol = ""
    · simp [get_stock_data, hs]
    · cases hc : cacheGet cache ("stock_" ++ pyUpper symbol) now with
      | none => simp [get_stock_data, hs, hc]
      | some d => simp [get_stock_data, hs, hc]
  · intro symbol cache now quote rest hp
    by_cases hs : symbol = ""
    · simp [get_stock_data, hs]
    · cases hc : cacheGet cache ("stock_" ++ pyUpper symbol) now with
      | none => simp [get_stock_data, hs, hc, hp]
      | some d => simp [get_stock_data, hs, hc]
  · intro query cache now e hq hmiss
    have hq' : ¬(query = "" ∨ (pyStrip query).length = 0) := by
      simpa [Nat.lt_one_iff] using hq
    simp [search_stocks, hq', hmiss, search_fmp_stocks, sortUs]

/-- Closed instance of `failure_cache_discipline` on the three quote
failure modes and the search failure mode. -/
theorem failure_cache_discipline_witness :
    (get_stock_data "AAPL" [] 0 (.error .transport)).2.1 = []
    ∧ (get_stock_data "AAPL" [] 0 (.ok [])).2.1 = []
    ∧ (get_stock_data "AAPL" [] 0
        (.ok [{ symbol := "AAPL", name := none, price := none, change := none,
                changesPercentage := none, previousClose := none }])).2.1 = []
    ∧ (search_stocks "AAPL" [] 0 (.error .transport)).2.1 =
        cachePut [] ("us_search_" ++ pyLower "AAPL") [] 0 :=
  ⟨failure_cache_discipline.1 "AAPL" [] 0 .transport,
   failure_cache_discipline.2.1 "AAPL" [] 0,
   failure_cache_discipline.2.2.1 "AAPL" [] 0 _ [] rfl,
   failure_cache_discipline.2.2.2 "AAPL" [] 0 .transport (by decide) rfl⟩

/-- C4 fails on the code for the quote endpoint: a second `/api/stock/AAPL`
request 100 s after the first (within the 300 s TTL) issues no upstream
call but returns the cached payload unchanged — its `source` field is still
`"fmp_api"`, not `"cache"`. -/
theorem cached_quote_source_cex :
    ((100 : ℚ) - 0 < CACHE_DURATION)
    ∧ (get_stock_data "AAPL" ((get_stock_data "AAPL" [] 0 (.ok [aaplQuote])).2.1) 100
        (.ok [aaplQuote])).2.2 = 0
    ∧ ((get_stock_data "AAPL" ((get_stock_data "AAPL" [] 0 (.ok [aaplQuote])).2.1) 100
        (.ok [aaplQuote])).1.data.map (fun d => d.source)) = some "fmp_api"
    ∧ ("fmp_api" : String) ≠ "cache" := by
  refine ⟨by norm_num [CACHE_DURATION], ?_, ?_, by decide⟩
  · simp [get_stock_data, cacheGet, cachePut, pyUpper, aaplQuote]
    norm_num [CACHE_DURATION]
  · simp [get_stock_data, cacheGet, cachePut, pyUpper, aaplQuote]
    norm_num [CACHE_DURATION]

/-- C4 amended: a search cache hit is tagged `source: "cache"` with no
upstream call, and a search miss is tagged `"fmp_api"` (not `"api"`) with
one upstream call; the quote endpoint does no tagging of its own — a hit
returns the stored payload unchanged (whose `source` field is the
`"fmp_api"` written when it was stored) with no upstream call. -/
theorem response_source_tags :
    (∀ (query : String) (cache : Cache (List SearchResult)) (now : ℚ)
        (fetch : Except FmpFailure (List FmpSearchItem)) (data : List SearchResult),
        ¬(query = "" ∨ (pyStrip query).length < 1) →
        cacheGet cache ("us_search_" ++ pyLower query) now = some data →
        (search_stocks query cache now fetch).1.source = some "cache"
        ∧ (search_stocks query cache now fetch).2.2 = 0)
    ∧ (∀ (query : String) (cache : Cache (List SearchResult)) (now : ℚ)
        (fetch : Except FmpFailure (List FmpSearchItem)),
        ¬(query = "" ∨ (pyStrip query).length < 1) →
        cacheGet cache ("us_search_" ++ pyLower query) now = none →
        (search_stocks query cache now fetch).1.source = some "fmp_api"
        ∧ (search_stocks query cache now fetch).2.2 = 1)
    ∧ (∀ (symbol : String) (cache : Cache StockData) (now : ℚ)
        (fetch : Except FmpFailure (List QuoteUpstream)) (data : StockData),
        ¬ symbol = "" →
        cacheGet cache ("stock_" ++ pyUpper symbol) now = some data →
        (get_stock_data symbol cache now fetch).1 = { data := some data, status := 200 }
        ∧ (get_stock_data symbol cache now fetch).2.2 = 0)
    ∧ (∀ (symbol : String) (cache : Cache StockData) (now : ℚ)
        (quote : QuoteUpstream) (rest : List QuoteUpstream) (p : ℚ),
        ¬ symbol = "" →
        cacheGet cache ("stock_" ++ pyUpper symbol) now = none →
        quote.price = some p →
        ∃ d : StockData,
          (get_stock_data symbol cache now (.ok (quote :: rest))).1.data = some d
          ∧ d.source = "fmp_api"
          ∧ (get_stock_data symbol cache now (.ok (quote :: rest))).2.1 =
              cachePut cache ("stock_" ++ pyUpper symbol) d now) := by
  refine ⟨?_, ?_, ?_, ?_⟩
  · intro query cache now fetch data hq hhit
    have hq' : ¬(query = "" ∨ (pyStrip query).length = 0) := by
      simpa [Nat.lt_one_iff] using hq
    constructor <;> simp [search_stocks, hq', hhit]
  · intro query cache now fetch hq hmiss
    have hq' : ¬(query = "" ∨ (pyStrip query).length = 0) := by
      simpa [Nat.lt_one_iff] using hq
    constructor <;> simp [search_stocks, hq', hmiss]
  · intro symbol cache now fetch data hs hhit
    constructor <;> simp [get_stock_data, hs, hhit]
  · intro symbol cache now quote rest p hs hmiss hp
    refine ⟨{ symbol := quote.symbol, name := quote.name.getD symbol, price := p,
              change := quote.change.getD 0, changePercent := quote.changesPercentage.getD 0,
              currency := "USD", timestamp := now, source := "fmp_api",
              filter := "US_STOCK" }, ?_, rfl, ?_⟩ <;>
      simp only [get_stock_data, if_neg hs, hmiss, hp]

/-- Closed instance of `response_source_tags`: a fresh search cache entry
is served with `source: "cache"` and no upstream call; a miss is tagged
`"fmp_api"`; a cached quote is returned unchanged. -/
theorem response_source_tags_witness :
    ((search_stocks "AAPL" [("us_search_aapl", [], 0)] 0 (.error .transport)).1.source
        = some "cache"
      ∧ (search_stocks "AAPL" [("us_search_aapl", [], 0)] 0 (.error .transport)).2.2 = 0)
    ∧ ((search_stocks "AAPL" [] 0 (.error .transport)).1.source = some "fmp_api"
      ∧ (search_stocks "AAPL" [] 0 (.error .transport)).2.2 = 1) := by
  constructor
  · exact response_source_tags.1 "AAPL" [("us_search_aapl", [], 0)] 0 (.error .transport) []
      (by decide)
      (by
        rw [show ("us_search_" ++ pyLower "AAPL" : String) = "us_search_aapl" from by decide]
        simp [cacheGet]
        norm_num [CACHE_DURATION])
  · exact response_source_tags.2.1 "AAPL" [] 0 (.error .transport) (by decide) rfl

lemma cacheGet_some_lookup {α : Type} {cache : Cache α} {key : String} {now : ℚ} {v : α}
    (h : cacheGet cache key now = some v) :
    ∃ t, cache.lookup key = some (v, t) ∧ now - t < CACHE_DURATION := by
  unfold cacheGet at h
  cases hl : cache.lookup key with
  | none =>
    rw [hl] at h
    cases h
  | some entry =>
    obtain ⟨w, t⟩ := entry
    rw [hl] at h
    have h' : (if now - t < CACHE_DURATION then some w else none) = some v := h
    by_cases hf : now - t < CACHE_DURATION
    · rw [if_pos hf] at h'
      cases h'
      exact ⟨t, rfl, hf⟩
    · rw [if_neg hf] at h'
      cases h'

/-- C7: with a cache miss, the search response's `results` list is the
sorted filtered list truncated to its first 10 elements (truncation after
sorting) and its `count` is the length of the untruncated filtered list;
on a cache hit the same truncate-and-count shape is served from the stored
list. -/
theorem search_truncation_count (query : String) (cache : Cache (List SearchResult)) (now : ℚ)
    (fetch : Except FmpFailure (List FmpSearchItem))
    (hq : ¬(query = "" ∨ (pyStrip query).length < 1)) :
    (cacheGet cache ("us_search_" ++ pyLower query) now = none →
      (search_stocks query cache now fetch).1.results
          = (sortUs query (search_fmp_stocks fetch)).take 10
      ∧ (search_stocks query cache now fetch).1.count = (search_fmp_stocks fetch).length
      ∧ (search_stocks query cache now fetch).1.results.length ≤ 10)
    ∧ (∀ data : List SearchResult,
      cacheGet cache ("us_search_" ++ pyLower query) now = some data →
      (search_stocks query cache now fetch).1.results = data.take 10
      ∧ (search_stocks query cache now fetch).1.count = data.length) := by
  have hq' : ¬(query = "" ∨ (pyStrip query).length = 0) := by
    simpa [Nat.lt_one_iff] using hq
  constructor
  · intro hmiss
    refine ⟨?_, ?_, ?_⟩
    · simp [search_stocks, hq', hmiss]
    · simp [search_stocks, hq', hmiss, sortUs]
    · simp only [search_stocks]
      rw [if_neg (by simpa [Nat.lt_one_iff] using hq)]
      rw [hmiss]
      simp [List.length_take]
  · intro data hhit
    constructor <;> simp [search_stocks, hq', hhit]

/-- Closed instance of `search_truncation_count` on a concrete miss. -/
theorem search_truncation_count_witness :
    (search_stocks "AAPL" [] 0 (.ok [itemAapl])).1.results
        = (sortUs "AAPL" (search_fmp_stocks (.ok [itemAapl]))).take 10
    ∧ (search_stocks "AAPL" [] 0 (.ok [itemAapl])).1.count
        = (search_fmp_stocks (.ok [itemAapl])).length
    ∧ (search_stocks "AAPL" [] 0 (.ok [itemAapl])).1.results.length ≤ 10 :=
  (search_truncation_count "AAPL" [] 0 (.ok [itemAapl]) (by decide)).1 rfl

/-- C9: the reshaped search list never carries two entries with the same
symbol; the surviving entries are (in upstream order) the image of a
subsequence of the upstream items; and a duplicated pair of `AAPL` items
yields exactly one entry, built from the first occurrence. -/
theorem search_dedup_first_wins (items : List FmpSearchItem) :
    (((search_fmp_stocks (.ok items)).map (fun r => r.symbol)).Nodup)
    ∧ (∃ chosen : List FmpSearchItem, chosen.Sublist items ∧
        search_fmp_stocks (.ok items) = chosen.map mkResult)
    ∧ search_fmp_stocks (.ok [itemAapl, itemAaplDup]) = [mkResult itemAapl] := by
  refine ⟨searchFmpGo_nodup items [] 0, ?_, by decide⟩
  obtain ⟨chosen, hsub, _, heq⟩ := searchFmpGo_chosen items [] 0
  exact ⟨chosen, hsub, heq⟩

/-- C10: provided every cached list already satisfies it (the cache is only
ever filled by this endpoint), every entry of a search response satisfies
the reshaping invariant: allow-listed exchange, currency `"USD"`, type
`"stock"`, and a dot-free, purely alphabetic symbol of length at most 6. -/
theorem search_results_us_invariant (query : String) (cache : Cache (List SearchResult))
    (now : ℚ) (fetch : Except FmpFailure (List FmpSearchItem))
    (hcache : ∀ (key : String) (data : List SearchResult) (t : ℚ),
      cache.lookup key = some (data, t) → ∀ r ∈ data, goodSearchResult r) :
    ∀ r ∈ (search_stocks query cache now fetch).1.results, goodSearchResult r := by
  intro r hr
  unfold search_stocks at hr
  by_cases hq : query = "" ∨ (pyStrip query).length < 1
  · rw [if_pos hq] at hr
    simp at hr
  · rw [if_neg hq] at hr
    cases hhit : cacheGet cache ("us_search_" ++ pyLower query) now with
    | some data =>
      rw [hhit] at hr
      obtain ⟨t, hlookup, _⟩ := cacheGet_some_lookup hhit
      exact hcache _ data t hlookup r (List.mem_of_mem_take hr)
    | none =>
      rw [hhit] at hr
      have h1 : r ∈ sortUs query (search_fmp_stocks fetch) := List.mem_of_mem_take hr
      have h2 : r ∈ search_fmp_stocks fetch := by
        simpa [sortUs] using h1
      cases fetch with
      | error e => simp [search_fmp_stocks] at h2
      | ok items => exact mem_searchFmpGo_good items [] 0 r h2

/-- Closed instance of `search_results_us_invariant` at a concrete result. -/
theorem search_results_us_invariant_witness :
    goodSearchResult (mkResult itemAapl) :=
  search_results_us_invariant "AAPL" [] 0 (.ok [itemAapl])
    (by intro key data t h; simp at h)
    (mkResult itemAapl) (by decide)

end Invest
